import Mathlib

/-!
Shallow embedding of the gitness authentication-and-hook-bridge subsystem:
  * `internal/githook/cli.go` — the hook line-protocol codec
    (`getUpdatedReferencesFromStdIn`) and the outcome interpreter
    (`handleServerHookOutput`);
  * `internal/auth/authn/token.go` — the token authenticator
    (`Authenticate`, `getPrincipal`, `extractToken`).

Go byte strings are modelled as `List Char` / `String`; fallible Go functions
returning `(T, error)` are modelled as `Except`/`Option`; the external stores
(user, service-account, token) are modelled as lookup functions; calls into
the external dgrijalva/jwt-go library are modelled by an explicit function
whose behaviour follows the library contract as used by the source.
-/

namespace Gitness

/-! ## Hook line protocol codec (internal/githook/cli.go) -/

/-- `githook.ReferenceUpdate`: one `<old> <new> <ref>` triple. -/
structure ReferenceUpdate where
  old : String
  new : String
  ref : String
deriving DecidableEq, Repr

/-- Model of one `bufio.Reader.ReadString('\n')` call: returns the line
*including* the trailing newline together with the unread rest of the stream,
or `none` when the end of the stream is reached before any `'\n'` is found
(the `io.EOF` case of `ReadString`, in which the partially read data is
returned with the error and the caller `break`s without using it). -/
def takeLine : List Char → Option (List Char × List Char)
  | [] => none
  | c :: cs =>
    if c = '\n' then some ([c], cs)
    else
      match takeLine cs with
      | none => none
      | some (l, r) => some (c :: l, r)

theorem takeLine_rest_length : ∀ (input l r : List Char),
    takeLine input = some (l, r) → r.length < input.length := by
  intro input
  induction input with
  | nil => intro l r h; simp [takeLine] at h
  | cons c cs ih =>
    intro l r h
    simp only [takeLine] at h
    by_cases hc : c = '\n'
    · simp [hc] at h
      obtain ⟨_, h2⟩ := h
      simp only [← h2, List.length_cons]
      omega
    · simp [hc] at h
      cases hrec : takeLine cs with
      | none => rw [hrec] at h; simp at h
      | some p =>
        rw [hrec] at h
        simp at h
        obtain ⟨_, h2⟩ := h
        have := ih p.1 p.2 (by rw [hrec])
        simp only [← h2, List.length_cons]
        omega

theorem takeLine_line_ne_nil : ∀ (input l r : List Char),
    takeLine input = some (l, r) → l ≠ [] := by
  intro input
  induction input with
  | nil => intro l r h; simp [takeLine] at h
  | cons c cs ih =>
    intro l r h
    simp only [takeLine] at h
    by_cases hc : c = '\n'
    · simp [hc] at h
      obtain ⟨h1, _⟩ := h
      simp [← h1]
    · simp [hc] at h
      cases hrec : takeLine cs with
      | none => rw [hrec] at h; simp at h
      | some p =>
        rw [hrec] at h
        simp at h
        obtain ⟨h1, _⟩ := h
        simp [← h1]

/-- Model of Go `strings.Split(s, " ")` restricted to the single-space
separator: splits at every `' '`, keeping empty fields, and yields `[""]`
on the empty string — exactly Go's behaviour. Auxiliary accumulator form. -/
def splitOnSpaceAux : List Char → List Char → List String
  | [], cur => [String.mk cur.reverse]
  | c :: cs, cur =>
    if c = ' ' then String.mk cur.reverse :: splitOnSpaceAux cs []
    else splitOnSpaceAux cs (c :: cur)

/-- Model of Go `strings.Split(line, " ")` on the char list of the line. -/
def splitOnSpace (s : List Char) : List String := splitOnSpaceAux s []

/-- The loop body of `getUpdatedReferencesFromStdIn`, accumulating parsed
updates exactly as the Go `for` loop appends to `updatedRefs`. -/
def refUpdatesLoop (input : List Char) (acc : List ReferenceUpdate) :
    Except String (List ReferenceUpdate) :=
  match h : takeLine input with
  | none => .ok acc
  | some (line, rest) =>
    if line.length = 0 then
      .error "ref data from stdin contains empty line - not expected"
    else
      match splitOnSpace line.dropLast with
      | [o, n, r] =>
        refUpdatesLoop rest (acc ++ [{ old := o, new := n, ref := r }])
      | _ =>
        .error "received invalid data format or didn't receive enough parameters"
termination_by input.length
decreasing_by exact takeLine_rest_length input line rest h

/-- `getUpdatedReferencesFromStdIn` from `internal/githook/cli.go`, with the
stdin stream made explicit as a `List Char`: reads `'\n'`-terminated lines
until EOF, requires each to split into exactly three space-separated fields
(checked as `len(splitGitHookData) != 3` in Go, here as the 3-element list
pattern), and fails the whole parse otherwise. -/
def getUpdatedReferencesFromStdIn (input : List Char) :
    Except String (List ReferenceUpdate) :=
  refUpdatesLoop input []

/-- The `'\n'`-terminated lines of a stream (content without the newline),
as the reading loop visits them; a trailing fragment with no newline is not
a line (it is the `io.EOF` case). -/
def terminatedLines (input : List Char) : List (List Char) :=
  match h : takeLine input with
  | none => []
  | some (line, rest) => line.dropLast :: terminatedLines rest
termination_by input.length
decreasing_by exact takeLine_rest_length input line rest h

theorem takeLine_none_iff (xs : List Char) :
    takeLine xs = none ↔ '\n' ∉ xs := by
  induction xs with
  | nil => simp [takeLine]
  | cons c cs ih =>
    by_cases hc : c = '\n'
    · simp [takeLine, hc]
    · simp only [takeLine, if_neg hc]
      cases hrec : takeLine cs with
      | none =>
        rw [hrec] at ih
        simp [List.mem_cons, ih.mp rfl]
        intro hcon
        exact (hc hcon.symm).elim
      | some p =>
        simp [List.mem_cons]
        intro _
        by_contra hnm
        have := ih.mpr hnm
        rw [this] at hrec
        cases hrec

theorem takeLine_append_some (s t l r : List Char)
    (h : takeLine s = some (l, r)) :
    takeLine (s ++ t) = some (l, r ++ t) := by
  induction s generalizing l r with
  | nil => simp [takeLine] at h
  | cons c cs ih =>
    by_cases hc : c = '\n'
    · simp [takeLine, hc] at h ⊢
      exact ⟨h.1, by rw [← h.2]⟩
    · simp only [takeLine, if_neg hc] at h
      cases hrec : takeLine cs with
      | none => rw [hrec] at h; simp at h
      | some p =>
        rw [hrec] at h
        simp at h
        have := ih p.1 p.2 (by rw [hrec])
        simp only [List.cons_append, takeLine, if_neg hc, List.append_eq]
        rw [this]
        simp [← h.1, ← h.2]

theorem refUpdatesLoop_of_takeLine_none (input : List Char)
    (acc : List ReferenceUpdate) (h : takeLine input = none) :
    refUpdatesLoop input acc = .ok acc := by
  rw [refUpdatesLoop.eq_def]
  split
  · rfl
  · rename_i line rest h2
    rw [h] at h2
    cases h2

theorem refUpdatesLoop_of_takeLine_some (input : List Char)
    (acc : List ReferenceUpdate) (line rest : List Char)
    (h : takeLine input = some (line, rest)) :
    refUpdatesLoop input acc =
      (if line.length = 0 then
        .error "ref data from stdin contains empty line - not expected"
      else
        match splitOnSpace line.dropLast with
        | [o, n, r] =>
          refUpdatesLoop rest (acc ++ [{ old := o, new := n, ref := r }])
        | _ =>
          .error "received invalid data format or didn't receive enough parameters") := by
  rw [refUpdatesLoop.eq_def]
  split
  · rename_i h2
    rw [h] at h2
    cases h2
  · rename_i line2 rest2 h2
    rw [h] at h2
    injection h2 with h3
    injection h3 with h4 h5
    subst h4
    subst h5
    rfl

theorem terminatedLines_of_takeLine_none (input : List Char)
    (h : takeLine input = none) : terminatedLines input = [] := by
  rw [terminatedLines.eq_def]
  split
  · rfl
  · rename_i line rest h2
    rw [h] at h2
    cases h2

theorem terminatedLines_of_takeLine_some (input line rest : List Char)
    (h : takeLine input = some (line, rest)) :
    terminatedLines input = line.dropLast :: terminatedLines rest := by
  rw [terminatedLines.eq_def]
  split
  · rename_i h2
    rw [h] at h2
    cases h2
  · rename_i line2 rest2 h2
    rw [h] at h2
    injection h2 with h3
    injection h3 with h4 h5
    subst h4
    subst h5
    rfl

theorem refUpdatesLoop_append_no_newline (t : List Char) (ht : '\n' ∉ t)
    (input : List Char) (acc : List ReferenceUpdate) :
    refUpdatesLoop (input ++ t) acc = refUpdatesLoop input acc := by
  induction input, acc using refUpdatesLoop.induct with
  | case1 input acc htl =>
    have h1 : '\n' ∉ input := (takeLine_none_iff input).mp htl
    have h2 : takeLine (input ++ t) = none := by
      rw [takeLine_none_iff]
      simp only [List.mem_append]
      rintro (hc | hc)
      · exact h1 hc
      · exact ht hc
    rw [refUpdatesLoop_of_takeLine_none _ _ h2,
        refUpdatesLoop_of_takeLine_none _ _ htl]
  | case2 input acc line rest htl hlen =>
    have h2 := takeLine_append_some input t line rest htl
    rw [refUpdatesLoop_of_takeLine_some _ _ _ _ h2,
        refUpdatesLoop_of_takeLine_some _ _ _ _ htl]
    simp [hlen]
  | case3 input acc line rest htl hlen o n r3 hsplit ih =>
    have h2 := takeLine_append_some input t line rest htl
    rw [refUpdatesLoop_of_takeLine_some _ _ _ _ h2,
        refUpdatesLoop_of_takeLine_some _ _ _ _ htl]
    simp [hlen, hsplit, ih]
  | case4 input acc line rest htl hlen hsplit =>
    have h2 := takeLine_append_some input t line rest htl
    rw [refUpdatesLoop_of_takeLine_some _ _ _ _ h2,
        refUpdatesLoop_of_takeLine_some _ _ _ _ htl]
    rcases hs : splitOnSpace line.dropLast with _ | ⟨a, _ | ⟨b, _ | ⟨c, _ | ⟨d, l⟩⟩⟩⟩
    · simp [hlen, hs]
    · simp [hlen, hs]
    · simp [hlen, hs]
    · exact (hsplit a b c hs).elim
    · simp [hlen, hs]

theorem refUpdatesLoop_error_of_malformed (input : List Char)
    (acc : List ReferenceUpdate) :
    (∃ l ∈ terminatedLines input, (splitOnSpace l).length ≠ 3) →
    ∃ e, refUpdatesLoop input acc = .error e := by
  induction input, acc using refUpdatesLoop.induct with
  | case1 input acc htl =>
    intro h
    rw [terminatedLines_of_takeLine_none _ htl] at h
    simp at h
  | case2 input acc line rest htl hlen =>
    intro _
    refine ⟨"ref data from stdin contains empty line - not expected", ?_⟩
    rw [refUpdatesLoop_of_takeLine_some _ _ _ _ htl]
    simp [hlen]
  | case3 input acc line rest htl hlen o n r3 hsplit ih =>
    intro h
    rw [terminatedLines_of_takeLine_some _ _ _ htl] at h
    rw [refUpdatesLoop_of_takeLine_some _ _ _ _ htl]
    rcases h with ⟨l, hl, hl3⟩
    rcases List.mem_cons.mp hl with h1 | h1
    · exfalso
      apply hl3
      rw [h1, hsplit]
      rfl
    · have := ih ⟨l, h1, hl3⟩
      simpa [hlen, hsplit] using this
  | case4 input acc line rest htl hlen hsplit =>
    intro _
    rw [refUpdatesLoop_of_takeLine_some _ _ _ _ htl]
    rcases hs : splitOnSpace line.dropLast with _ | ⟨a, _ | ⟨b, _ | ⟨c, _ | ⟨d, l⟩⟩⟩⟩
    · exact ⟨"received invalid data format or didn't receive enough parameters",
        by simp [hlen, hs]⟩
    · exact ⟨"received invalid data format or didn't receive enough parameters",
        by simp [hlen, hs]⟩
    · exact ⟨"received invalid data format or didn't receive enough parameters",
        by simp [hlen, hs]⟩
    · exact (hsplit a b c hs).elim
    · exact ⟨"received invalid data format or didn't receive enough parameters",
        by simp [hlen, hs]⟩

/-! ## Hook outcome interpreter (internal/githook/cli.go) -/

/-- `githook.ServerHookOutput`: the server's response object; `error` models
the `Error *string` field (`none` = no rejection message). -/
structure ServerHookOutput where
  error : Option String
deriving DecidableEq, Repr

/-- `handleServerHookOutput` from `internal/githook/cli.go`. The Go function
returns `error`; we model a returned non-nil error as `some message` (the
process blocks the push and surfaces the message) and a nil return as `none`
(allow). `out = none` models a nil response pointer, `err = some e` a non-nil
transport error whose text is `e`. -/
def handleServerHookOutput (out : Option ServerHookOutput) (err : Option String) :
    Option String :=
  match err with
  | some e => some ("an error occured when calling the server: " ++ e)
  | none =>
    match out with
    | none => some "the server returned an empty output"
    | some o =>
      match o.error with
      | some msg => some msg
      | none => none

/-! ## Token authenticator (internal/auth/authn/token.go) -/

/-- `enum.TokenType`: the declared class of a token. The four classes the
authenticator recognises are explicit constructors; `other` covers every
remaining class value (the `default` arm of the Go `switch`). -/
inductive TokenType where
  | pat
  | session
  | oauth2
  | sat
  | other (s : String)
deriving DecidableEq, Repr

/-- `token.JWTClaims`: the decoded, untrusted claim set of a credential
(principal id, token id, declared token class). -/
structure JWTClaims where
  principalID : Int
  tokenID : Int
  tokenType : TokenType
deriving DecidableEq, Repr

/-- The signing method recorded in a parsed JWT credential. `hmac` models a
`*jwt.SigningMethodHMAC`; the other constructors model every method for which
the Go type assertion `parsed.Method.(*jwt.SigningMethodHMAC)` fails. -/
inductive SigningMethod where
  | hmac (alg : String)
  | rsa (alg : String)
  | ecdsa (alg : String)
  | noSignature
deriving DecidableEq, Repr

/-- The Go type assertion `_, ok := parsed.Method.(*jwt.SigningMethodHMAC)`. -/
def SigningMethod.isHMAC : SigningMethod → Bool
  | .hmac _ => true
  | _ => false

/-- The decoded content of a syntactically well-formed JWT credential string:
its claim set, its signing method, and — abstracting the cryptography of the
external jwt-go library — which verification keys its signature verifies
under. -/
structure Credential where
  claims : JWTClaims
  method : SigningMethod
  verifiesUnder : String → Bool

/-- `types.User` (the fields the authenticator reads: id and salt). -/
structure User where
  id : Int
  salt : String
deriving DecidableEq, Repr

/-- `types.ServiceAccount` (the fields the authenticator reads). -/
structure ServiceAccount where
  id : Int
  salt : String
deriving DecidableEq, Repr

/-- The two principal variants of `types.Principal`. -/
inductive PrincipalKind where
  | user
  | serviceAccount
deriving DecidableEq, Repr

/-- `types.Principal`: polymorphic identity with its per-principal salt. -/
structure Principal where
  id : Int
  kind : PrincipalKind
  salt : String
deriving DecidableEq, Repr

/-- `types.PrincipalFromUser`. -/
def PrincipalFromUser (u : User) : Principal :=
  { id := u.id, kind := .user, salt := u.salt }

/-- `types.PrincipalFromServiceAccount`. -/
def PrincipalFromServiceAccount (sa : ServiceAccount) : Principal :=
  { id := sa.id, kind := .serviceAccount, salt := sa.salt }

/-- `types.Token`: the persisted token record (fields read by `Authenticate`:
`Type`, `ID`, `Grants`). Grants are modelled as their numeric bitfield. -/
structure Token where
  id : Int
  tokenType : TokenType
  grants : Int
deriving DecidableEq, Repr

/-- `auth.TokenMetadata`. -/
structure TokenMetadata where
  tokenType : TokenType
  tokenID : Int
  grants : Int
deriving DecidableEq, Repr

/-- `auth.Session`: the request-scoped result of authentication. -/
structure Session where
  principal : Principal
  metadata : TokenMetadata
deriving DecidableEq, Repr

/-- `TokenAuthenticator` with its three stores modelled as lookup functions:
`some` is a successful `Find`, `none` a `Find` that returns an error
(record absent). -/
structure TokenAuthenticator where
  userStore : Int → Option User
  saStore : Int → Option ServiceAccount
  tokenStore : Int → Option Token

/-- One store lookup performed during authentication; `Authenticate` and
`getPrincipal` return the list of lookups they performed so that claims
about which stores are (not) consulted are statable. -/
inductive StoreLookup where
  | user (id : Int)
  | serviceAccount (id : Int)
  | token (id : Int)
deriving DecidableEq, Repr

/-- The error taxonomy of `Authenticate` as the source produces it. -/
inductive GetPrincipalError where
  | storeFindFailed
  | unsupportedTokenType (t : TokenType)
deriving DecidableEq, Repr

/-- The errors `Authenticate` can return: `noAuthData` is `ErrNoAuthData`;
`failedToGetPrincipal` wraps a keyfunc failure (`"failed to get principal
for token: %w"`); `malformedCredential` and `signatureInvalid` are the
errors of the external jwt-go parse; `invalidToken` is the generic
`errors.New("invalid token")`; `tokenNotFound` wraps a failed token-store
`Find` (`"token wasn't found: %w"`). -/
inductive AuthError where
  | noAuthData
  | malformedCredential
  | failedToGetPrincipal (e : GetPrincipalError)
  | signatureInvalid
  | invalidToken
  | tokenNotFound
deriving DecidableEq, Repr

/-- `getPrincipal` from `internal/auth/authn/token.go`: dispatches on the
claimed token class; PAT/session/OAuth2 resolve via the user store, SAT via
the service-account store, anything else fails with the unsupported-token-type
error. The second component records the store lookups performed. -/
def getPrincipal (a : TokenAuthenticator) (claims : JWTClaims) :
    Except GetPrincipalError Principal × List StoreLookup :=
  match claims.tokenType with
  | .pat | .session | .oauth2 =>
    (match a.userStore claims.principalID with
     | none => .error .storeFindFailed
     | some u => .ok (PrincipalFromUser u),
     [.user claims.principalID])
  | .sat =>
    (match a.saStore claims.principalID with
     | none => .error .storeFindFailed
     | some sa => .ok (PrincipalFromServiceAccount sa),
     [.serviceAccount claims.principalID])
  | .other s =>
    (.error (.unsupportedTokenType (.other s)), [])

/-- Model of the call `jwt.ParseWithClaims(str, claims, keyfunc)` made by
`Authenticate`, with the external library's behaviour made explicit:
`decoded` is the result of decoding the credential string (`none` =
structurally malformed, the library fails without invoking the keyfunc);
otherwise the keyfunc runs — in the source it resolves the principal via
`getPrincipal` and returns the principal's salt as the verification key,
assigning the principal to a closure variable which we return alongside the
parsed token — and the signature is verified against that key. On success
the library yields a token with `Valid = true`. -/
def parseWithClaims (a : TokenAuthenticator) (decoded : Option Credential) :
    Except AuthError (Credential × Bool × Principal) × List StoreLookup :=
  match decoded with
  | none => (.error .malformedCredential, [])
  | some cred =>
    match getPrincipal a cred.claims with
    | (.error e, tr) => (.error (.failedToGetPrincipal e), tr)
    | (.ok principal, tr) =>
      if cred.verifiesUnder principal.salt then
        (.ok (cred, true, principal), tr)
      else
        (.error .signatureInvalid, tr)

/-- The inbound HTTP request, reduced to what `extractToken` reads:
`authorizationHeader` is `r.Header.Get("Authorization")` (`""` when the
header is absent, as in Go); `basicAuth` is the result of `r.BasicAuth()`
(`none` when `ok` is false, i.e. the header does not decode as HTTP Basic
credentials, otherwise the username/password pair); `accessTokenFormValue`
is `r.FormValue("access_token")` (`""` when absent). -/
structure Request where
  authorizationHeader : String
  basicAuth : Option (String × String)
  accessTokenFormValue : String

/-- Go `strings.HasPrefix(s, p)`. -/
def goHasPfx (s p : String) : Bool :=
  List.isPrefixOf p.data s.data

/-- Go `strings.TrimPrefix(s, p)`: removes `p` from the front of `s` when
present, otherwise returns `s` unchanged. -/
def goTrimPfx (s p : String) : String :=
  if goHasPfx s p then String.mk (s.data.drop p.data.length) else s

/-- `extractToken` from `internal/auth/authn/token.go`. -/
def extractToken (r : Request) : String :=
  let bearer := r.authorizationHeader
  if bearer = "" then
    r.accessTokenFormValue
  else if goHasPfx bearer "Basic" then
    match r.basicAuth with
    | none => ""
    | some (_, tkn) => tkn
  else
    goTrimPfx (goTrimPfx bearer "Bearer ") "IdentityService "

/-- `Authenticate` from `internal/auth/authn/token.go`, parameterised by the
JWT wire decoding `decode` (the external library's base64/JSON decoding of a
credential string). The second component is the list of store lookups
performed. Mirrors the source line by line: empty extracted credential →
`ErrNoAuthData`; then `jwt.ParseWithClaims` (whose keyfunc resolves the
principal and supplies its salt); a parse error is returned as-is; then the
`!parsed.Valid` and the non-HMAC method checks, each failing with the generic
invalid-token error; then the token-store `Find` on `claims.TokenID`, failing
when the record is absent; finally the session is assembled from the resolved
principal and the found record's type/id/grants. -/
def Authenticate (a : TokenAuthenticator) (decode : String → Option Credential)
    (r : Request) : Except AuthError Session × List StoreLookup :=
  let str := extractToken r
  if str.length = 0 then
    (.error .noAuthData, [])
  else
    match parseWithClaims a (decode str) with
    | (.error e, tr) => (.error e, tr)
    | (.ok (cred, valid, principal), tr) =>
      if valid = false then
        (.error .invalidToken, tr)
      else if cred.method.isHMAC = false then
        (.error .invalidToken, tr)
      else
        match a.tokenStore cred.claims.tokenID with
        | none => (.error .tokenNotFound, tr ++ [.token cred.claims.tokenID])
        | some tkn =>
          (.ok { principal := principal,
                 metadata := { tokenType := tkn.tokenType,
                               tokenID := tkn.id,
                               grants := tkn.grants } },
           tr ++ [.token cred.claims.tokenID])

/-! ## Shared concrete instances used by witnesses -/

/-- An authenticator whose user store knows principal 1 with salt "salt1" and
whose token store is empty. -/
def authEmptyTokens : TokenAuthenticator :=
  { userStore := fun _ => some { id := 1, salt := "salt1" }
    saStore := fun _ => none
    tokenStore := fun _ => none }

/-- An authenticator with no records at all. -/
def authNoRecords : TokenAuthenticator :=
  { userStore := fun _ => none
    saStore := fun _ => none
    tokenStore := fun _ => none }

/-- A decode function for which every credential string is malformed. -/
def decodeNothing : String → Option Credential := fun _ => none

/-- A request presenting a bearer credential. -/
def reqBearer : Request :=
  { authorizationHeader := "Bearer tok", basicAuth := none, accessTokenFormValue := "" }

/-- A PAT claim set naming principal 1 and token 5. -/
def claimsPat : JWTClaims := { principalID := 1, tokenID := 5, tokenType := .pat }

/-- A credential with those claims, RS256-signed, whose signature verifies. -/
def credRSA : Credential :=
  { claims := claimsPat, method := .rsa "RS256", verifiesUnder := fun _ => true }

/-- A credential with those claims, HMAC-signed, whose signature verifies. -/
def credHMAC : Credential :=
  { claims := claimsPat, method := .hmac "HS256", verifiesUnder := fun _ => true }

/-- The principal resolved for `claimsPat` by `authEmptyTokens`. -/
def principal1 : Principal := { id := 1, kind := .user, salt := "salt1" }

end Gitness

namespace Gitness

/-- A successful `parseWithClaims` always yields a token with `Valid = true`
(the jwt-go library returns a nil error only for tokens it marked valid). -/
theorem parseWithClaims_ok_valid (a : TokenAuthenticator)
    (decoded : Option Credential) (cred : Credential) (valid : Bool)
    (principal : Principal) (tr : List StoreLookup)
    (h : parseWithClaims a decoded = (.ok (cred, valid, principal), tr)) :
    valid = true := by
  cases decoded with
  | none => simp [parseWithClaims] at h
  | some c =>
    simp only [parseWithClaims] at h
    rcases hg : getPrincipal a c.claims with ⟨res, tr2⟩
    rw [hg] at h
    cases res with
    | error e => simp at h
    | ok p =>
      by_cases hv : c.verifiesUnder p.salt = true
      · simp [hv] at h
        exact h.1.2.1
      · simp at hv
        simp [hv] at h

/-! ## Claim theorems -/

/-- C6: for every response received without transport error, the interpreter's
result is exactly the server's optional rejection message: a carried message
yields a blocking result with that message verbatim, and an absent message
yields the allow (`none`) result. -/
theorem handleServerHookOutput_verbatim (o : ServerHookOutput) :
    handleServerHookOutput (some o) none = o.error := by
  cases h : o.error <;> simp [handleServerHookOutput, h]

/-- C5: the outcome interpreter never resolves an ambiguous result to allow:
a non-nil transport error yields a blocking result reporting the underlying
error text, and a nil error with an absent response object yields a blocking
result saying the server returned an empty output; neither case yields the
allow (`none`) result. -/
theorem handleServerHookOutput_no_ambiguous_allow
    (out : Option ServerHookOutput) (err : Option String) :
    (∀ e, err = some e →
      handleServerHookOutput out err =
        some ("an error occured when calling the server: " ++ e)) ∧
    (err = none → out = none →
      handleServerHookOutput out err = some "the server returned an empty output") := by
  constructor
  · intro e he
    simp [handleServerHookOutput, he]
  · intro he ho
    simp [handleServerHookOutput, he, ho]

/-- Witness for C5 at concrete inputs: a transport error "connection refused",
and a nil error with nil response. -/
theorem handleServerHookOutput_no_ambiguous_allow_witness :
    handleServerHookOutput none (some "connection refused") =
      some ("an error occured when calling the server: " ++ "connection refused") ∧
    handleServerHookOutput none none = some "the server returned an empty output" :=
  ⟨(handleServerHookOutput_no_ambiguous_allow none (some "connection refused")).1
      "connection refused" rfl,
   (handleServerHookOutput_no_ambiguous_allow none none).2 rfl rfl⟩

/-- C7: for every request with no Authorization header and no access_token
form value, `Authenticate` fails with `NoAuthData` and returns no session
(and performs no store lookup). -/
theorem Authenticate_noAuthData_on_absent_credential
    (a : TokenAuthenticator) (decode : String → Option Credential) (r : Request)
    (h1 : r.authorizationHeader = "") (h2 : r.accessTokenFormValue = "") :
    Authenticate a decode r = (.error .noAuthData, []) := by
  have he : extractToken r = "" := by simp [extractToken, h1, h2]
  simp [Authenticate, he]

/-- Witness for C7: a fully empty request. -/
theorem Authenticate_noAuthData_on_absent_credential_witness :
    Authenticate authNoRecords decodeNothing
      { authorizationHeader := "", basicAuth := none, accessTokenFormValue := "" } =
      (.error .noAuthData, []) :=
  Authenticate_noAuthData_on_absent_credential _ _ _ rfl rfl

/-- C9: for every request whose Authorization header begins with "Basic" but
does not decode as valid HTTP Basic credentials (`r.BasicAuth()` reports not
ok), extraction yields the empty credential and `Authenticate` fails with
`NoAuthData`, not with an invalid-token error. -/
theorem Authenticate_noAuthData_on_undecodable_basic
    (a : TokenAuthenticator) (decode : String → Option Credential) (r : Request)
    (h1 : r.authorizationHeader ≠ "")
    (h2 : goHasPfx r.authorizationHeader "Basic" = true)
    (h3 : r.basicAuth = none) :
    Authenticate a decode r = (.error .noAuthData, []) := by
  have he : extractToken r = "" := by
    simp [extractToken, h1, h2, h3]
  simp [Authenticate, he]

/-- Witness for C9: a "Basic" header that is not valid Basic credentials. -/
theorem Authenticate_noAuthData_on_undecodable_basic_witness :
    Authenticate authNoRecords decodeNothing
      { authorizationHeader := "Basic %%%", basicAuth := none,
        accessTokenFormValue := "" } = (.error .noAuthData, []) :=
  Authenticate_noAuthData_on_undecodable_basic _ _ _
    (by decide) (by decide) rfl

/-- C3: principal resolution dispatches exactly on the claimed token class:
PAT/session/OAuth2 claims resolve from the user store (performing exactly
that lookup), service-account-token claims from the service-account store,
and every other class fails with the unsupported-token-type error with no
principal-store lookup at all. -/
theorem getPrincipal_dispatch (a : TokenAuthenticator) (claims : JWTClaims) :
    ((claims.tokenType = .pat ∨ claims.tokenType = .session ∨
        claims.tokenType = .oauth2) →
      getPrincipal a claims =
        ((a.userStore claims.principalID).elim (.error .storeFindFailed)
           (fun u => .ok (PrincipalFromUser u)),
         [.user claims.principalID])) ∧
    (claims.tokenType = .sat →
      getPrincipal a claims =
        ((a.saStore claims.principalID).elim (.error .storeFindFailed)
           (fun sa => .ok (PrincipalFromServiceAccount sa)),
         [.serviceAccount claims.principalID])) ∧
    (∀ s, claims.tokenType = .other s →
      getPrincipal a claims = (.error (.unsupportedTokenType (.other s)), [])) := by
  refine ⟨?_, ?_, ?_⟩
  · rintro (h | h | h) <;>
      cases hu : a.userStore claims.principalID <;>
        simp [getPrincipal, h, hu]
  · intro h
    cases hs : a.saStore claims.principalID <;> simp [getPrincipal, h, hs]
  · intro s h
    simp [getPrincipal, h]

/-- Witness for C3: an unrecognised class fails with no lookup, and a PAT
claim resolves via the user store. -/
theorem getPrincipal_dispatch_witness :
    getPrincipal authNoRecords
        { principalID := 1, tokenID := 2, tokenType := .other "weird" } =
      (.error (.unsupportedTokenType (.other "weird")), []) ∧
    getPrincipal authEmptyTokens
        { principalID := 1, tokenID := 2, tokenType := .pat } =
      ((authEmptyTokens.userStore 1).elim (.error .storeFindFailed)
         (fun u => .ok (PrincipalFromUser u)), [.user 1]) :=
  ⟨(getPrincipal_dispatch authNoRecords _).2.2 "weird" rfl,
   (getPrincipal_dispatch authEmptyTokens _).1 (Or.inl rfl)⟩

/-- C1: for every inbound credential that is parsed, if the parsed token's
signing method is not an HMAC method, `Authenticate` fails with the generic
invalid-token error and never returns a session. -/
theorem Authenticate_rejects_non_hmac
    (a : TokenAuthenticator) (decode : String → Option Credential) (r : Request)
    (cred : Credential) (valid : Bool) (principal : Principal)
    (tr : List StoreLookup)
    (hne : (extractToken r).length ≠ 0)
    (hp : parseWithClaims a (decode (extractToken r)) =
      (.ok (cred, valid, principal), tr))
    (hm : cred.method.isHMAC = false) :
    Authenticate a decode r = (.error .invalidToken, tr) := by
  simp only [Authenticate, if_neg hne, hp]
  cases valid <;> simp [hm]

/-- Witness for C1: a credential whose signature verifies but whose method is
RS256 is rejected with the invalid-token error. -/
theorem Authenticate_rejects_non_hmac_witness :
    ((extractToken reqBearer).length ≠ 0) ∧
    Authenticate authEmptyTokens (fun _ => some credRSA) reqBearer =
      (.error .invalidToken, [.user 1]) :=
  ⟨by decide,
   Authenticate_rejects_non_hmac authEmptyTokens (fun _ => some credRSA) reqBearer
     credRSA true principal1 [.user 1] (by decide) rfl rfl⟩

/-- C2: for every credential that parses, passes signature verification and
carries an HMAC method, `Authenticate` performs the token-store lookup on the
claim set's token id; it fails with the token-not-found error whenever the
lookup finds no record, and a session is returned only when the record
exists, with metadata (type, id, grants) taken from the found record. -/
theorem Authenticate_revocation_check
    (a : TokenAuthenticator) (decode : String → Option Credential) (r : Request)
    (cred : Credential) (valid : Bool) (principal : Principal)
    (tr : List StoreLookup)
    (hne : (extractToken r).length ≠ 0)
    (hp : parseWithClaims a (decode (extractToken r)) =
      (.ok (cred, valid, principal), tr))
    (hm : cred.method.isHMAC = true) :
    (Authenticate a decode r).2 = tr ++ [.token cred.claims.tokenID] ∧
    (a.tokenStore cred.claims.tokenID = none →
      (Authenticate a decode r).1 = .error .tokenNotFound) ∧
    (∀ s, (Authenticate a decode r).1 = .ok s →
      ∃ tkn, a.tokenStore cred.claims.tokenID = some tkn ∧
        s.metadata = { tokenType := tkn.tokenType, tokenID := tkn.id,
                       grants := tkn.grants } ∧
        s.principal = principal) := by
  have hv : valid = true := parseWithClaims_ok_valid a _ _ _ _ _ hp
  subst hv
  simp only [Authenticate, if_neg hne, hp]
  cases ht : a.tokenStore cred.claims.tokenID with
  | none =>
    refine ⟨by simp [hm], ?_, ?_⟩
    · intro _
      simp [hm]
    · intro s hs
      simp [hm] at hs
  | some tkn =>
    refine ⟨by simp [hm], ?_, ?_⟩
    · intro hn
      cases hn
    · intro s hs
      simp [hm] at hs
      exact ⟨tkn, rfl, by simp [← hs], by simp [← hs]⟩

/-- Witness for C2: a correctly signed HMAC credential whose token record has
been deleted fails with the token-not-found error, after exactly the user
lookup and the token lookup. -/
theorem Authenticate_revocation_check_witness :
    (Authenticate authEmptyTokens (fun _ => some credHMAC) reqBearer).1 =
      .error .tokenNotFound ∧
    (Authenticate authEmptyTokens (fun _ => some credHMAC) reqBearer).2 =
      [.user 1, .token 5] :=
  ⟨(Authenticate_revocation_check authEmptyTokens (fun _ => some credHMAC) reqBearer
      credHMAC true principal1 [.user 1] (by decide) rfl rfl).2.1 rfl,
   (Authenticate_revocation_check authEmptyTokens (fun _ => some credHMAC) reqBearer
      credHMAC true principal1 [.user 1] (by decide) rfl rfl).1⟩

/-- C8: parsing preserves git's emission order: the stdin content
`"aaa bbb refs/heads/main\nccc ddd refs/heads/dev\n"` parses successfully to
exactly the two expected `ReferenceUpdate` entries, in that order. -/
theorem getUpdatedReferences_order_scenario :
    getUpdatedReferencesFromStdIn
        "aaa bbb refs/heads/main\nccc ddd refs/heads/dev\n".data =
      .ok [{ old := "aaa", new := "bbb", ref := "refs/heads/main" },
           { old := "ccc", new := "ddd", ref := "refs/heads/dev" }] := by
  simp [getUpdatedReferencesFromStdIn, refUpdatesLoop, takeLine,
        splitOnSpace, splitOnSpaceAux]

/-- C4: for every input stream containing at least one (newline-terminated)
line that does not split into exactly three space-separated fields, the parse
fails as a whole with an error and returns no sequence at all — it never
returns a partial sequence of the well-formed prefix. -/
theorem getUpdatedReferences_fails_on_malformed (input : List Char)
    (h : ∃ l ∈ terminatedLines input, (splitOnSpace l).length ≠ 3) :
    ∃ e, getUpdatedReferencesFromStdIn input = .error e :=
  refUpdatesLoop_error_of_malformed input [] h

/-- Witness for C4: the two-field line "aaa bbb" fails the whole parse. -/
theorem getUpdatedReferences_fails_on_malformed_witness :
    (∃ l ∈ terminatedLines "aaa bbb\n".data, (splitOnSpace l).length ≠ 3) ∧
    (∃ e, getUpdatedReferencesFromStdIn "aaa bbb\n".data = .error e) := by
  have hT : terminatedLines "aaa bbb\n".data = ["aaa bbb".data] := by
    rw [terminatedLines_of_takeLine_some "aaa bbb\n".data "aaa bbb\n".data []
      (by decide)]
    rw [terminatedLines_of_takeLine_none [] (by decide)]
    decide
  have hmem : ∃ l ∈ terminatedLines "aaa bbb\n".data,
      (splitOnSpace l).length ≠ 3 := by
    refine ⟨"aaa bbb".data, ?_, by decide⟩
    rw [hT]
    simp
  exact ⟨hmem, getUpdatedReferences_fails_on_malformed _ hmem⟩

/-- C10: for every input stream whose final line is not newline-terminated,
the trailing unterminated bytes are silently discarded: appending any
newline-free suffix to a stream leaves the parse result unchanged, so such
bytes never produce a `ReferenceUpdate` and never cause a parse failure. -/
theorem getUpdatedReferences_ignores_trailing (s t : List Char)
    (ht : '\n' ∉ t) :
    getUpdatedReferencesFromStdIn (s ++ t) = getUpdatedReferencesFromStdIn s :=
  refUpdatesLoop_append_no_newline t ht s []

/-- Witness for C10: trailing bytes "garbage" after the last newline change
nothing. -/
theorem getUpdatedReferences_ignores_trailing_witness :
    ('\n' ∉ "garbage".data) ∧
    getUpdatedReferencesFromStdIn ("aaa bbb refs/x\n".data ++ "garbage".data) =
      getUpdatedReferencesFromStdIn "aaa bbb refs/x\n".data :=
  ⟨by decide,
   getUpdatedReferences_ignores_trailing "aaa bbb refs/x\n".data "garbage".data
     (by decide)⟩

end Gitness
